import Mathlib

/-!
Shallow embedding of `ott/geometry/low_rank.py` (class `LRCGeometry` and
the free function `add_lrc_geom`), together with theorems settling the
frozen claims about it.

Modelling conventions:

* Arrays are modelled exactly (`ℚ` entries) rather than by floating point;
  the claims about numeric identities are stated for exact arithmetic,
  matching the spec's "to floating tolerance / in exact arithmetic".
* `jnp.sqrt` has no exact counterpart on `ℚ`, so every definition that
  multiplies by `jnp.sqrt(scale)` takes an explicit function
  `sqrt : ℚ → ℚ` standing for the square root; theorems that need the
  defining property assume `sqrt s * sqrt s = s` for the scale values that
  actually occur.  Definitions apply `sqrt` exactly where the source does.
* Python exceptions (`assert` shape checks, `NotImplementedError`,
  `ValueError`, `jnp.concatenate` shape errors) are modelled with
  `Except Err`.
* `jax.lax.stop_gradient` is the identity on values and is dropped.
-/

namespace OttLowRank

/-- Error kinds of the spec: `assert`/concatenate shape failures,
`NotImplementedError`, `ValueError` for an unrecognized policy string. -/
inductive Err where
  | shapeMismatch
  | notImplemented
  | invalidConfig
deriving DecidableEq

/-- The `scale_cost` constructor argument: Python `None`, a `float`, a
`str`, or any other object (e.g. an `int`, which `isinstance(_, float)`
rejects). -/
inductive SC where
  | none
  | flt (x : ℚ)
  | str (s : String)
  | other
deriving DecidableEq

/-- Opaque stand-in for the `**kwargs` forwarded to the base geometry
(auxiliary parameters, passed through unexamined). -/
structure Aux where
  tag : Nat
deriving DecidableEq

/-- A dense matrix of declared shape `r × c`; entries outside the declared
range are irrelevant (never read by the operations below). -/
structure Mat where
  r : Nat
  c : Nat
  e : Nat → Nat → ℚ

/-- Matrix transpose (`jnp.transpose`). -/
def Mat.transpose (A : Mat) : Mat :=
  ⟨A.c, A.r, fun i j => A.e j i⟩

/-- Product `jnp.matmul` of `A` with `Bᵀ` folded into one operation
(`jnp.matmul(A, B.T)`); defined on conforming shapes `A.c = B.c`. -/
def Mat.mulT (A B : Mat) : Mat :=
  ⟨A.r, B.r, fun i j => ∑ k ∈ Finset.range A.c, A.e i k * B.e j k⟩

/-- Entrywise scalar multiple (`M * t` in the source). -/
def Mat.smul (t : ℚ) (A : Mat) : Mat :=
  ⟨A.r, A.c, fun i j => t * A.e i j⟩

/-- Entrywise addition of a constant (broadcast `+ bias`). -/
def Mat.addConst (A : Mat) (b : ℚ) : Mat :=
  ⟨A.r, A.c, fun i j => A.e i j + b⟩

/-- Entrywise sum of two matrices (dimensions taken from the first). -/
def Mat.add (A B : Mat) : Mat :=
  ⟨A.r, A.c, fun i j => A.e i j + B.e i j⟩

/-- Entrywise square (`cost_matrix ** 2`). -/
def Mat.elemSq (A : Mat) : Mat :=
  ⟨A.r, A.c, fun i j => A.e i j * A.e i j⟩

/-- Matrix-vector product `jnp.dot(A, v)` for a vector `v` of length `A.c`. -/
def Mat.mulVec (A : Mat) (v : List ℚ) : List ℚ :=
  (List.range A.r).map fun i => ∑ j ∈ Finset.range A.c, A.e i j * v.getD j 0

/-- Column-wise concatenation `jnp.concatenate((A, B), axis=1)`: fails unless row counts agree. -/
def Mat.hconcat (A B : Mat) : Except Err Mat :=
  if A.r = B.r then
    Except.ok ⟨A.r, A.c + B.c, fun i j => if j < A.c then A.e i j else B.e i (j - A.c)⟩
  else Except.error Err.shapeMismatch

/-- All in-range entries, row major. -/
def Mat.entriesList (A : Mat) : List ℚ :=
  ((List.range A.r).map fun i => (List.range A.c).map fun j => A.e i j).flatten

/-- Maximum absolute entry `jnp.max(jnp.abs(A))` (on a nonempty matrix; the `0` base is inert
because every `|entry|` is nonnegative). -/
def Mat.maxAbs (A : Mat) : ℚ :=
  (A.entriesList.map fun x => |x|).foldr max 0

/-- Extensional equality of matrices: same declared shape and equal
in-range entries. -/
def Mat.Ext (A B : Mat) : Prop :=
  A.r = B.r ∧ A.c = B.c ∧ ∀ i, i < A.r → ∀ j, j < A.c → A.e i j = B.e i j

instance (A B : Mat) : Decidable (A.Ext B) :=
  inferInstanceAs (Decidable (_ ∧ _ ∧ _))

/-- Sum of a vector (`jnp.sum(vec)`). -/
def listSum (v : List ℚ) : ℚ :=
  ∑ i ∈ Finset.range v.length, v.getD i 0

/-- The `LRCGeometry` instance state: two raw factors, the raw bias, the
`scale_cost` option and the forwarded kwargs — exactly the attributes
stored by `__init__`. -/
structure LRCGeometry where
  _cost_1 : Mat
  _cost_2 : Mat
  _bias : ℚ
  _scale_cost : SC
  _kwargs : Aux

/-- Constructor `LRCGeometry.__init__`: stores the fields after
`assert cost_1.shape[1] == cost_2.shape[1]` (modelled as a
`ShapeMismatch` failure). -/
def LRCGeometry.init (cost_1 cost_2 : Mat) (bias : ℚ) (scale_cost : SC)
    (kwargs : Aux) : Except Err LRCGeometry :=
  if cost_1.c = cost_2.c then
    Except.ok ⟨cost_1, cost_2, bias, scale_cost, kwargs⟩
  else Except.error Err.shapeMismatch

/-- The `shape` property: `(num_a, num_b)`. -/
def LRCGeometry.shape (g : LRCGeometry) : Nat × Nat :=
  (g._cost_1.r, g._cost_2.r)

/-- The `cost_rank` property: number of columns of the first factor. -/
def LRCGeometry.cost_rank (g : LRCGeometry) : Nat :=
  g._cost_1.c

/-- The `scale_cost` property.  Branch order follows the source:
`isinstance(_, float)` first (so a Python `int` is NOT accepted), then the
string comparisons, then `isinstance(_, str)` (unrecognized string), then
the final `else` returning `1.0` (covers `None` and any other object).
The `'mean'` branch computes `(1ᵀ·A)·(Bᵀ·1) / (n·m) + bias` without
materializing the cost matrix. -/
def LRCGeometry.scale_cost (g : LRCGeometry) : Except Err ℚ :=
  match g._scale_cost with
  | SC.flt x => Except.ok x
  | SC.str s =>
    if s = "max_bound" then
      Except.ok (1 / (g._cost_1.maxAbs * g._cost_2.maxAbs + |g._bias|))
    else if s = "mean" then
      Except.ok (1 /
        ((∑ k ∈ Finset.range g._cost_1.c,
            (∑ i ∈ Finset.range g._cost_1.r, g._cost_1.e i k) *
            (∑ j ∈ Finset.range g._cost_2.r, g._cost_2.e j k)) /
          ((g._cost_1.r : ℚ) * (g._cost_2.r : ℚ)) + g._bias))
    else if s = "max_cost" then Except.error Err.notImplemented
    else Except.error Err.invalidConfig
  | SC.none => Except.ok 1
  | SC.other => Except.ok 1

/-- The `cost_1` property: `self._cost_1 * jnp.sqrt(self.scale_cost)`. -/
def LRCGeometry.cost_1 (g : LRCGeometry) (sqrt : ℚ → ℚ) : Except Err Mat :=
  (g.scale_cost).map fun s => Mat.smul (sqrt s) g._cost_1

/-- The `cost_2` property: `self._cost_2 * jnp.sqrt(self.scale_cost)`. -/
def LRCGeometry.cost_2 (g : LRCGeometry) (sqrt : ℚ → ℚ) : Except Err Mat :=
  (g.scale_cost).map fun s => Mat.smul (sqrt s) g._cost_2

/-- The `bias` property: `self._bias * self.scale_cost`. -/
def LRCGeometry.bias (g : LRCGeometry) : Except Err ℚ :=
  (g.scale_cost).map fun s => g._bias * s

/-- The `cost_matrix` property: `cost_1 @ cost_2.T + bias` (scaled factors and
scaled bias). -/
def LRCGeometry.cost_matrix (g : LRCGeometry) (sqrt : ℚ → ℚ) : Except Err Mat := do
  let c1 ← g.cost_1 sqrt
  let c2 ← g.cost_2 sqrt
  let b ← g.bias
  return (c1.mulT c2).addConst b

/-- The inner `efficient_apply` of `_apply_cost_to_vec`: pick
`(c1, c2) = (cost_2, cost_1)` for `axis = 0` and `(cost_1, cost_2)` for
`axis = 1`, compute `c1 · (c2ᵀ · vec)` and add the scaled bias times
`jnp.sum(vec)` broadcast over the output (`fn` absent, so no `fn`
application). -/
def LRCGeometry.efficient_apply (g : LRCGeometry) (sqrt : ℚ → ℚ)
    (vec : List ℚ) (axis : Nat) : Except Err (List ℚ) := do
  let c1 ← if axis = 1 then g.cost_1 sqrt else g.cost_2 sqrt
  let c2 ← if axis = 1 then g.cost_2 sqrt else g.cost_1 sqrt
  let b ← g.bias
  let out := c1.mulVec (c2.transpose.mulVec vec)
  return out.map fun x => x + b * listSum vec

/-- The method `_apply_cost_to_vec(vec, axis, fn=None)`: with `fn = None` the source's
`jnp.where(fn is None or is_linear(fn), ...)` selects the efficient
factored application (both branches are evaluated and agree; the selector
picks the first). Only the `fn = None` case is embedded, which is the case
all claims are about. -/
def LRCGeometry._apply_cost_to_vec (g : LRCGeometry) (sqrt : ℚ → ℚ)
    (vec : List ℚ) (axis : Nat) : Except Err (List ℚ) :=
  g.efficient_apply sqrt vec axis

/-- Modelled from the spec: the base geometry class
(`ott.geometry.geometry.Geometry`, not included under `src/`) provides the
generic dense `apply_square_cost` fallback — "delegate to the generic dense
elementwise-square-then-multiply fallback": materialize `cost_matrix`,
square it elementwise, and apply it densely to the vector (transposed for
`axis = 0`, straight for `axis = 1`, the same orientation the factored
application uses). -/
def LRCGeometry.base_apply_square_cost (g : LRCGeometry) (sqrt : ℚ → ℚ)
    (vec : List ℚ) (axis : Nat) : Except Err (List ℚ) :=
  (g.cost_matrix sqrt).map fun C =>
    (if axis = 1 then C.elemSq else C.elemSq.transpose).mulVec vec

/-- The method `apply_square_cost(arr, axis)`: if `n·m < (n+m)·r²`, delegate to the
dense fallback; otherwise build the augmented rank-`r²` geometry whose
factors are the outer-product expansions
`new_cost_1[i, k*r+l] = cost_1[i,k]·cost_1[i,l]` (the reshape of
`cost_1[:, :, None] * cost_1[:, None, :]` to `(n, r²)`) and apply it
(bias `0`, `scale_cost = None`, no kwargs). -/
def LRCGeometry.apply_square_cost (g : LRCGeometry) (sqrt : ℚ → ℚ)
    (vec : List ℚ) (axis : Nat) : Except Err (List ℚ) :=
  let n := g._cost_1.r
  let m := g._cost_2.r
  let r := g._cost_1.c
  if n * m < (n + m) * (r * r) then
    g.base_apply_square_cost sqrt vec axis
  else do
    let c1 ← g.cost_1 sqrt
    let c2 ← g.cost_2 sqrt
    let new_cost_1 : Mat := ⟨n, r * r, fun i t => c1.e i (t / r) * c1.e i (t % r)⟩
    let new_cost_2 : Mat := ⟨m, r * r, fun j t => c2.e j (t / r) * c2.e j (t % r)⟩
    let aug : LRCGeometry := ⟨new_cost_1, new_cost_2, 0, SC.none, ⟨0⟩⟩
    aug._apply_cost_to_vec sqrt vec axis

/-- The method `tree_flatten`: children `(cost_1_raw, cost_2_raw, kwargs)` and the
static aux data `(bias, scale_cost)`. -/
def LRCGeometry.tree_flatten (g : LRCGeometry) :
    (Mat × Mat × Aux) × (ℚ × SC) :=
  ((g._cost_1, g._cost_2, g._kwargs), (g._bias, g._scale_cost))

/-- The classmethod `tree_unflatten`: `cls(*children[:-1], **children[-1], **aux_data)`,
i.e. reconstruction through `__init__`. -/
def LRCGeometry.tree_unflatten (aux_data : ℚ × SC)
    (children : Mat × Mat × Aux) : Except Err LRCGeometry :=
  LRCGeometry.init children.1 children.2.1 aux_data.1 aux_data.2 children.2.2

/-- The function `add_lrc_geom(geom1, geom2)`: concatenate the scaled factors
column-wise (resolving each operand's scale), then construct a new
geometry with default bias `0.0`, default `scale_cost = None`, and
`geom1`'s kwargs. -/
def add_lrc_geom (sqrt : ℚ → ℚ) (geom1 geom2 : LRCGeometry) :
    Except Err LRCGeometry := do
  let c11 ← geom1.cost_1 sqrt
  let c21 ← geom2.cost_1 sqrt
  let f1 ← c11.hconcat c21
  let c12 ← geom1.cost_2 sqrt
  let c22 ← geom2.cost_2 sqrt
  let f2 ← c12.hconcat c22
  LRCGeometry.init f1 f2 0 SC.none geom1._kwargs

/-- Mean of all entries of a matrix (`jnp.mean`). -/
def Mat.mean (A : Mat) : ℚ :=
  (∑ i ∈ Finset.range A.r, ∑ j ∈ Finset.range A.c, A.e i j) /
    ((A.r : ℚ) * (A.c : ℚ))

/-- The quantity the `'mean'` branch of `scale_cost` inverts:
`(1ᵀ·A)·(Bᵀ·1) / (n·m) + bias`, computed without materializing the cost
matrix. -/
def LRCGeometry.unscaledMean (g : LRCGeometry) : ℚ :=
  (∑ k ∈ Finset.range g._cost_1.c,
      (∑ i ∈ Finset.range g._cost_1.r, g._cost_1.e i k) *
      (∑ j ∈ Finset.range g._cost_2.r, g._cost_2.e j k)) /
    ((g._cost_1.r : ℚ) * (g._cost_2.r : ℚ)) + g._bias

/-- A tiny concrete geometry used by witnesses: factors `2×1` and `1×1`,
bias `5`, no scaling. -/
def exG1 : LRCGeometry :=
  ⟨⟨2, 1, fun i _ => (i : ℚ) + 1⟩, ⟨1, 1, fun _ _ => 3⟩, 5, SC.none, ⟨0⟩⟩

/-- Concrete zero-bias geometry (1×1 factors) used by witnesses. -/
def exG2 : LRCGeometry :=
  ⟨⟨1, 1, fun _ _ => 2⟩, ⟨1, 1, fun _ _ => 3⟩, 0, SC.none, ⟨0⟩⟩

/-- Second concrete zero-bias geometry of the same shape as `exG2`. -/
def exG3 : LRCGeometry :=
  ⟨⟨1, 1, fun _ _ => 4⟩, ⟨1, 1, fun _ _ => 5⟩, 0, SC.none, ⟨1⟩⟩

/-- Concrete geometry with the `'max_bound'` policy and all-ones factors. -/
def exG5 : LRCGeometry :=
  ⟨⟨1, 1, fun _ _ => 1⟩, ⟨1, 1, fun _ _ => 1⟩, 0, SC.str "max_bound", ⟨0⟩⟩

/-- Concrete geometry with the `'mean'` policy and all-ones factors. -/
def exG6 : LRCGeometry :=
  ⟨⟨1, 1, fun _ _ => 1⟩, ⟨1, 1, fun _ _ => 1⟩, 0, SC.str "mean", ⟨0⟩⟩

/-- Concrete geometry with the unimplemented `'max_cost'` policy. -/
def exG7 : LRCGeometry :=
  ⟨⟨1, 1, fun _ _ => 1⟩, ⟨1, 1, fun _ _ => 1⟩, 0, SC.str "max_cost", ⟨0⟩⟩

/-- Concrete geometry whose `scale_cost` argument is a non-float,
non-string, non-None object (e.g. the Python int `2`). -/
def exG10 : LRCGeometry :=
  ⟨⟨1, 1, fun _ _ => 1⟩, ⟨1, 1, fun _ _ => 1⟩, 0, SC.other, ⟨0⟩⟩

/-! ### Helper lemmas -/

lemma getD_range_map (L : Nat) (f : Nat → ℚ) (k : Nat) (hk : k < L) :
    ((List.range L).map f).getD k 0 = f k := by
  rw [List.getD_eq_getElem?_getD, List.getElem?_map, List.getElem?_range hk]
  rfl

lemma bind_ok' {α β : Type} (x : α) (f : α → Except Err β) :
    (Except.ok x >>= f) = f x := rfl

lemma bind_error' {α β : Type} (e : Err) (f : α → Except Err β) :
    ((Except.error e : Except Err α) >>= f) = Except.error e := rfl

lemma fmap_ok' {α β : Type} (f : α → β) (x : α) :
    (f <$> (Except.ok x : Except Err α)) = Except.ok (f x) := rfl

lemma fmap_error' {α β : Type} (f : α → β) (e : Err) :
    (f <$> (Except.error e : Except Err α)) = Except.error e := rfl

lemma emap_ok' {α β : Type} (f : α → β) (x : α) :
    Except.map f (Except.ok x : Except Err α) = Except.ok (f x) := rfl

lemma emap_error' {α β : Type} (f : α → β) (e : Err) :
    Except.map f (Except.error e : Except Err α) = Except.error e := rfl

lemma pure_ok' {α : Type} (x : α) :
    (pure x : Except Err α) = Except.ok x := rfl

/-- Core algebraic identity behind the factored matrix-vector product:
for factors `A` (`n×r`) and `B` (`m×r`), scaled entrywise by `t` and `u`,
the factored product `(u·B) · ((t·A)ᵀ · v)` plus the bias-broadcast term
agrees entrywise with the dense product of `(t·A)(u·B)ᵀ + b` transposed. -/
lemma factored_apply_eq_dense (A B : Mat) (t u b : ℚ) (v : List ℚ)
    (hc : A.c = B.c) (hv : v.length = A.r) (j : Nat) :
    (∑ k ∈ Finset.range B.c,
        (u * B.e j k) *
          (((Mat.smul t A).transpose.mulVec v).getD k 0)) + b * listSum v =
    ∑ i ∈ Finset.range A.r,
      ((∑ k ∈ Finset.range A.c, (t * A.e i k) * (u * B.e j k)) + b) *
        v.getD i 0 := by
  have hw : ∀ k, k < A.c →
      ((Mat.smul t A).transpose.mulVec v).getD k 0 =
        ∑ i ∈ Finset.range A.r, (t * A.e i k) * v.getD i 0 := by
    intro k hk
    unfold Mat.mulVec Mat.transpose Mat.smul
    exact getD_range_map _ _ _ hk
  rw [← hc]
  calc (∑ k ∈ Finset.range A.c,
          (u * B.e j k) *
            (((Mat.smul t A).transpose.mulVec v).getD k 0)) + b * listSum v
      = (∑ k ∈ Finset.range A.c, ∑ i ∈ Finset.range A.r,
          (u * B.e j k) * ((t * A.e i k) * v.getD i 0)) + b * listSum v := by
        refine congrArg (· + b * listSum v) ?_
        refine Finset.sum_congr rfl fun k hk => ?_
        rw [hw k (Finset.mem_range.mp hk), Finset.mul_sum]
    _ = (∑ i ∈ Finset.range A.r, ∑ k ∈ Finset.range A.c,
          ((t * A.e i k) * (u * B.e j k)) * v.getD i 0) + b * listSum v := by
        rw [Finset.sum_comm]
        refine congrArg (· + b * listSum v) ?_
        refine Finset.sum_congr rfl fun i _ => Finset.sum_congr rfl fun k _ => ?_
        ring
    _ = ∑ i ∈ Finset.range A.r,
          ((∑ k ∈ Finset.range A.c, (t * A.e i k) * (u * B.e j k)) + b) *
            v.getD i 0 := by
        unfold listSum
        rw [hv, Finset.mul_sum, ← Finset.sum_add_distrib]
        refine Finset.sum_congr rfl fun i _ => ?_
        rw [add_mul, Finset.sum_mul]

/-! ### C1: factored vector application equals the dense product -/

/-- C1: for every geometry (well-formed factors), every axis in {0, 1} and
every vector of the length selected by the axis, `_apply_cost_to_vec` with
`fn = None` equals the dense matrix-vector product of `cost_matrix`
(transposed for axis 0) with the vector. -/
theorem C1_apply_cost_to_vec_matches_dense (g : LRCGeometry) (sqrt : ℚ → ℚ)
    (vec : List ℚ) (axis : Nat)
    (hcols : g._cost_1.c = g._cost_2.c)
    (hax : axis = 0 ∨ axis = 1)
    (hlen : vec.length = if axis = 1 then g._cost_2.r else g._cost_1.r) :
    g._apply_cost_to_vec sqrt vec axis =
      (g.cost_matrix sqrt).map fun C =>
        (if axis = 1 then C else C.transpose).mulVec vec := by
  cases hsc : g.scale_cost with
  | error e =>
    rcases hax with h | h <;> subst h <;>
      simp [LRCGeometry._apply_cost_to_vec, LRCGeometry.efficient_apply,
        LRCGeometry.cost_matrix, LRCGeometry.cost_1, LRCGeometry.cost_2,
        LRCGeometry.bias, hsc, bind_error', fmap_error', emap_error']
  | ok s =>
    rcases hax with h | h <;> subst h
    · simp only [if_neg (by decide : ¬ (0 = 1))] at hlen ⊢
      simp only [LRCGeometry._apply_cost_to_vec, LRCGeometry.efficient_apply,
        LRCGeometry.cost_matrix, LRCGeometry.cost_1, LRCGeometry.cost_2,
        LRCGeometry.bias, hsc, emap_ok', if_neg (by decide : ¬ (0 = 1)),
        bind_ok', fmap_ok']
      refine congrArg Except.ok ?_
      unfold Mat.mulVec Mat.transpose Mat.mulT Mat.addConst Mat.smul
      simp only [List.map_map]
      refine List.map_congr_left fun j _ => ?_
      exact factored_apply_eq_dense g._cost_1 g._cost_2 (sqrt s) (sqrt s)
        (g._bias * s) vec hcols hlen j
    · simp only [if_pos rfl] at hlen ⊢
      simp only [LRCGeometry._apply_cost_to_vec, LRCGeometry.efficient_apply,
        LRCGeometry.cost_matrix, LRCGeometry.cost_1, LRCGeometry.cost_2,
        LRCGeometry.bias, hsc, emap_ok', if_pos rfl, bind_ok', fmap_ok']
      refine congrArg Except.ok ?_
      unfold Mat.mulVec Mat.transpose Mat.mulT Mat.addConst Mat.smul
      simp only [List.map_map]
      refine List.map_congr_left fun i _ => ?_
      have := factored_apply_eq_dense g._cost_2 g._cost_1 (sqrt s) (sqrt s)
        (g._bias * s) vec hcols.symm hlen i
      -- dense side for axis 1 reads the untransposed cost matrix
      calc _ = ∑ k ∈ Finset.range g._cost_2.r,
            ((∑ l ∈ Finset.range g._cost_2.c,
              (sqrt s * g._cost_2.e k l) * (sqrt s * g._cost_1.e i l)) +
              g._bias * s) * vec.getD k 0 := this
        _ = _ := by
            refine Finset.sum_congr rfl fun k _ => ?_
            refine congrArg (· * vec.getD k 0) (congrArg (· + g._bias * s) ?_)
            rw [← hcols]
            exact Finset.sum_congr rfl fun l _ => mul_comm _ _

/-- Witness for C1 at a concrete input (axis 0, vector `[2, 7]`). -/
theorem C1_witness :
    exG1._cost_1.c = exG1._cost_2.c ∧
    exG1._apply_cost_to_vec (fun _ => 1) [2, 7] 0 =
      (exG1.cost_matrix (fun _ => 1)).map fun C =>
        (if (0 : Nat) = 1 then C else C.transpose).mulVec [2, 7] :=
  ⟨rfl, C1_apply_cost_to_vec_matches_dense exG1 (fun _ => 1) [2, 7] 0 rfl
    (Or.inl rfl) (by decide)⟩

/-! ### C2: squared-cost application -/

lemma sum_range_mul_div_mod (K r : Nat) (f : Nat → Nat → ℚ) :
    ∑ t ∈ Finset.range (K * r), f (t / r) (t % r) =
    ∑ k ∈ Finset.range K, ∑ l ∈ Finset.range r, f k l := by
  rcases Nat.eq_zero_or_pos r with hr | hr
  · subst hr; simp
  · induction K with
    | zero => simp
    | succ K ih =>
      rw [Nat.succ_mul, Finset.sum_range_add, ih, Finset.sum_range_succ]
      refine congrArg (_ + ·) ?_
      refine Finset.sum_congr rfl fun x hx => ?_
      have hxr := Finset.mem_range.mp hx
      rw [mul_comm K r, Nat.mul_add_div hr, Nat.mul_add_mod,
        Nat.div_eq_of_lt hxr, Nat.mod_eq_of_lt hxr, Nat.add_zero]

/-- C2: for every geometry with zero bias, `apply_square_cost` equals the
dense product of the elementwise-squared cost matrix with the vector, in
both strategy branches (the branch is chosen per call by comparing
`n·m` with `(n+m)·r²`). -/
theorem C2_apply_square_cost_matches_dense (g : LRCGeometry) (sqrt : ℚ → ℚ)
    (vec : List ℚ) (axis : Nat)
    (hb : g._bias = 0)
    (hcols : g._cost_1.c = g._cost_2.c)
    (h1 : sqrt 1 * sqrt 1 = 1)
    (hax : axis = 0 ∨ axis = 1)
    (hlen : vec.length = if axis = 1 then g._cost_2.r else g._cost_1.r) :
    g.apply_square_cost sqrt vec axis =
      (g.cost_matrix sqrt).map fun C =>
        (if axis = 1 then C.elemSq else C.elemSq.transpose).mulVec vec := by
  by_cases hlt :
      g._cost_1.r * g._cost_2.r <
        (g._cost_1.r + g._cost_2.r) * (g._cost_1.c * g._cost_1.c)
  · simp only [LRCGeometry.apply_square_cost, hlt, if_true]
    rfl
  · simp only [LRCGeometry.apply_square_cost, hlt, if_false]
    cases hsc : g.scale_cost with
    | error e =>
      simp [LRCGeometry._apply_cost_to_vec, LRCGeometry.efficient_apply,
        LRCGeometry.cost_matrix, LRCGeometry.cost_1, LRCGeometry.cost_2,
        LRCGeometry.bias, hsc, bind_error', fmap_error', emap_error']
    | ok s =>
      simp only [LRCGeometry.cost_1, LRCGeometry.cost_2, LRCGeometry.bias,
        LRCGeometry.cost_matrix, hsc, emap_ok', bind_ok', pure_ok']
      rcases hax with h | h <;> subst h
      · simp only [if_neg (by decide : ¬ ((0 : Nat) = 1))] at hlen
        simp only [LRCGeometry._apply_cost_to_vec, LRCGeometry.efficient_apply,
          LRCGeometry.scale_cost, LRCGeometry.cost_1, LRCGeometry.cost_2,
          LRCGeometry.bias, emap_ok', bind_ok', pure_ok',
          eq_false (by decide : ¬ ((0 : Nat) = 1)), if_false,
          Mat.mulVec, Mat.transpose, Mat.smul, Mat.mulT, Mat.addConst,
          Mat.elemSq, List.map_map]
        refine congrArg Except.ok ?_
        refine List.map_congr_left fun j _ => ?_
        refine Eq.trans (factored_apply_eq_dense
          ⟨g._cost_1.r, g._cost_1.c * g._cost_1.c,
            fun i t => (Mat.smul (sqrt s) g._cost_1).e i (t / g._cost_1.c) *
              (Mat.smul (sqrt s) g._cost_1).e i (t % g._cost_1.c)⟩
          ⟨g._cost_2.r, g._cost_1.c * g._cost_1.c,
            fun i t => (Mat.smul (sqrt s) g._cost_2).e i (t / g._cost_1.c) *
              (Mat.smul (sqrt s) g._cost_2).e i (t % g._cost_1.c)⟩
          (sqrt 1) (sqrt 1) (0 * 1) vec rfl hlen j) ?_
        refine Finset.sum_congr rfl fun i _ => ?_
        refine congrArg (· * vec.getD i 0) ?_
        have hsq1 : ∀ a b : ℚ, (sqrt 1 * a) * (sqrt 1 * b) = a * b := by
          intro a b
          calc (sqrt 1 * a) * (sqrt 1 * b) = (sqrt 1 * sqrt 1) * (a * b) := by ring
          _ = a * b := by rw [h1, one_mul]
        calc (∑ t ∈ Finset.range (g._cost_1.c * g._cost_1.c),
              (sqrt 1 * ((Mat.smul (sqrt s) g._cost_1).e i (t / g._cost_1.c) *
                (Mat.smul (sqrt s) g._cost_1).e i (t % g._cost_1.c))) *
              (sqrt 1 * ((Mat.smul (sqrt s) g._cost_2).e j (t / g._cost_1.c) *
                (Mat.smul (sqrt s) g._cost_2).e j (t % g._cost_1.c)))) + 0 * 1
            = ∑ t ∈ Finset.range (g._cost_1.c * g._cost_1.c),
              (((Mat.smul (sqrt s) g._cost_1).e i (t / g._cost_1.c)) *
                ((Mat.smul (sqrt s) g._cost_2).e j (t / g._cost_1.c))) *
              (((Mat.smul (sqrt s) g._cost_1).e i (t % g._cost_1.c)) *
                ((Mat.smul (sqrt s) g._cost_2).e j (t % g._cost_1.c))) := by
              rw [mul_one, add_zero]
              refine Finset.sum_congr rfl fun t _ => ?_
              rw [hsq1]; ring
          _ = ∑ k ∈ Finset.range g._cost_1.c, ∑ l ∈ Finset.range g._cost_1.c,
              ((Mat.smul (sqrt s) g._cost_1).e i k * (Mat.smul (sqrt s) g._cost_2).e j k) *
              ((Mat.smul (sqrt s) g._cost_1).e i l * (Mat.smul (sqrt s) g._cost_2).e j l) :=
              sum_range_mul_div_mod g._cost_1.c g._cost_1.c (fun k l =>
                ((Mat.smul (sqrt s) g._cost_1).e i k * (Mat.smul (sqrt s) g._cost_2).e j k) *
                ((Mat.smul (sqrt s) g._cost_1).e i l * (Mat.smul (sqrt s) g._cost_2).e j l))
          _ = (∑ k ∈ Finset.range g._cost_1.c,
                (Mat.smul (sqrt s) g._cost_1).e i k * (Mat.smul (sqrt s) g._cost_2).e j k) *
              (∑ l ∈ Finset.range g._cost_1.c,
                (Mat.smul (sqrt s) g._cost_1).e i l * (Mat.smul (sqrt s) g._cost_2).e j l) :=
              (Finset.sum_mul_sum ..).symm
          _ = ((∑ k ∈ Finset.range g._cost_1.c,
                (Mat.smul (sqrt s) g._cost_1).e i k * (Mat.smul (sqrt s) g._cost_2).e j k) +
                g._bias * s) *
              ((∑ l ∈ Finset.range g._cost_1.c,
                (Mat.smul (sqrt s) g._cost_1).e i l * (Mat.smul (sqrt s) g._cost_2).e j l) +
                g._bias * s) := by rw [hb, zero_mul, add_zero]
      · simp only [if_pos (rfl : (1 : Nat) = 1)] at hlen
        simp only [LRCGeometry._apply_cost_to_vec, LRCGeometry.efficient_apply,
          LRCGeometry.scale_cost, LRCGeometry.cost_1, LRCGeometry.cost_2,
          LRCGeometry.bias, emap_ok', bind_ok', pure_ok',
          eq_self_iff_true, if_true,
          Mat.mulVec, Mat.transpose, Mat.smul, Mat.mulT, Mat.addConst,
          Mat.elemSq, List.map_map]
        refine congrArg Except.ok ?_
        refine List.map_congr_left fun i _ => ?_
        refine Eq.trans (factored_apply_eq_dense
          ⟨g._cost_2.r, g._cost_1.c * g._cost_1.c,
            fun j t => (Mat.smul (sqrt s) g._cost_2).e j (t / g._cost_1.c) *
              (Mat.smul (sqrt s) g._cost_2).e j (t % g._cost_1.c)⟩
          ⟨g._cost_1.r, g._cost_1.c * g._cost_1.c,
            fun j t => (Mat.smul (sqrt s) g._cost_1).e j (t / g._cost_1.c) *
              (Mat.smul (sqrt s) g._cost_1).e j (t % g._cost_1.c)⟩
          (sqrt 1) (sqrt 1) (0 * 1) vec rfl hlen i) ?_
        refine Finset.sum_congr rfl fun j _ => ?_
        refine congrArg (· * vec.getD j 0) ?_
        have hsq1 : ∀ a b : ℚ, (sqrt 1 * a) * (sqrt 1 * b) = a * b := by
          intro a b
          calc (sqrt 1 * a) * (sqrt 1 * b) = (sqrt 1 * sqrt 1) * (a * b) := by ring
          _ = a * b := by rw [h1, one_mul]
        calc (∑ t ∈ Finset.range (g._cost_1.c * g._cost_1.c),
              (sqrt 1 * ((Mat.smul (sqrt s) g._cost_2).e j (t / g._cost_1.c) *
                (Mat.smul (sqrt s) g._cost_2).e j (t % g._cost_1.c))) *
              (sqrt 1 * ((Mat.smul (sqrt s) g._cost_1).e i (t / g._cost_1.c) *
                (Mat.smul (sqrt s) g._cost_1).e i (t % g._cost_1.c)))) + 0 * 1
            = ∑ t ∈ Finset.range (g._cost_1.c * g._cost_1.c),
              (((Mat.smul (sqrt s) g._cost_1).e i (t / g._cost_1.c)) *
                ((Mat.smul (sqrt s) g._cost_2).e j (t / g._cost_1.c))) *
              (((Mat.smul (sqrt s) g._cost_1).e i (t % g._cost_1.c)) *
                ((Mat.smul (sqrt s) g._cost_2).e j (t % g._cost_1.c))) := by
              rw [mul_one, add_zero]
              refine Finset.sum_congr rfl fun t _ => ?_
              rw [hsq1]; ring
          _ = ∑ k ∈ Finset.range g._cost_1.c, ∑ l ∈ Finset.range g._cost_1.c,
              ((Mat.smul (sqrt s) g._cost_1).e i k * (Mat.smul (sqrt s) g._cost_2).e j k) *
              ((Mat.smul (sqrt s) g._cost_1).e i l * (Mat.smul (sqrt s) g._cost_2).e j l) :=
              sum_range_mul_div_mod g._cost_1.c g._cost_1.c (fun k l =>
                ((Mat.smul (sqrt s) g._cost_1).e i k * (Mat.smul (sqrt s) g._cost_2).e j k) *
                ((Mat.smul (sqrt s) g._cost_1).e i l * (Mat.smul (sqrt s) g._cost_2).e j l))
          _ = (∑ k ∈ Finset.range g._cost_1.c,
                (Mat.smul (sqrt s) g._cost_1).e i k * (Mat.smul (sqrt s) g._cost_2).e j k) *
              (∑ l ∈ Finset.range g._cost_1.c,
                (Mat.smul (sqrt s) g._cost_1).e i l * (Mat.smul (sqrt s) g._cost_2).e j l) :=
              (Finset.sum_mul_sum ..).symm
          _ = ((∑ k ∈ Finset.range g._cost_1.c,
                (Mat.smul (sqrt s) g._cost_1).e i k * (Mat.smul (sqrt s) g._cost_2).e j k) +
                g._bias * s) *
              ((∑ l ∈ Finset.range g._cost_1.c,
                (Mat.smul (sqrt s) g._cost_1).e i l * (Mat.smul (sqrt s) g._cost_2).e j l) +
                g._bias * s) := by rw [hb, zero_mul, add_zero]

/-- Witness for C2 at a concrete input (axis 0, vector `[4]`). -/
theorem C2_witness :
    exG2._bias = 0 ∧
    exG2.apply_square_cost (fun _ => 1) [4] 0 =
      (exG2.cost_matrix (fun _ => 1)).map fun C =>
        (if (0 : Nat) = 1 then C.elemSq else C.elemSq.transpose).mulVec [4] :=
  ⟨rfl, C2_apply_square_cost_matches_dense exG2 (fun _ => 1) [4] 0 rfl rfl
    (by norm_num) (Or.inl rfl) (by decide)⟩

/-! ### C3: merge of two geometries -/

/-- C3: for two well-formed geometries (equal factor column counts, zero
bias, resolvable scales) of identical shape, `add_lrc_geom` succeeds and
yields a geometry whose rank is the sum of the ranks, whose kwargs come
from the first operand, and whose cost matrix is the entrywise sum of the
operands' cost matrices; operands of mismatched shape fail with
`ShapeMismatch`. -/
theorem C3_add_lrc_geom_merge (sqrt : ℚ → ℚ) (g1 g2 : LRCGeometry)
    (hc1 : g1._cost_1.c = g1._cost_2.c)
    (hc2 : g2._cost_1.c = g2._cost_2.c)
    (hb1 : g1._bias = 0) (hb2 : g2._bias = 0)
    (hok1 : ∃ s, g1.scale_cost = Except.ok s)
    (hok2 : ∃ s, g2.scale_cost = Except.ok s)
    (h1 : sqrt 1 * sqrt 1 = 1) :
    (g1._cost_1.r = g2._cost_1.r → g1._cost_2.r = g2._cost_2.r →
      ∃ g, add_lrc_geom sqrt g1 g2 = Except.ok g ∧
        g.cost_rank = g1.cost_rank + g2.cost_rank ∧
        g._kwargs = g1._kwargs ∧
        ∀ C C1 C2, g.cost_matrix sqrt = Except.ok C →
          g1.cost_matrix sqrt = Except.ok C1 →
          g2.cost_matrix sqrt = Except.ok C2 →
          C.Ext (C1.add C2)) ∧
    (¬ (g1._cost_1.r = g2._cost_1.r ∧ g1._cost_2.r = g2._cost_2.r) →
      add_lrc_geom sqrt g1 g2 = Except.error Err.shapeMismatch) := by
  obtain ⟨s1, hs1⟩ := hok1
  obtain ⟨s2, hs2⟩ := hok2
  have hsq1 : ∀ a b : ℚ, (sqrt 1 * a) * (sqrt 1 * b) = a * b := by
    intro a b
    calc (sqrt 1 * a) * (sqrt 1 * b) = (sqrt 1 * sqrt 1) * (a * b) := by ring
    _ = a * b := by rw [h1, one_mul]
  constructor
  · intro hr1 hr2
    refine ⟨⟨⟨g1._cost_1.r, g1._cost_1.c + g2._cost_1.c,
        fun i j => if j < g1._cost_1.c then sqrt s1 * g1._cost_1.e i j
          else sqrt s2 * g2._cost_1.e i (j - g1._cost_1.c)⟩,
      ⟨g1._cost_2.r, g1._cost_2.c + g2._cost_2.c,
        fun i j => if j < g1._cost_2.c then sqrt s1 * g1._cost_2.e i j
          else sqrt s2 * g2._cost_2.e i (j - g1._cost_2.c)⟩,
      0, SC.none, g1._kwargs⟩, ?_, ?_, rfl, ?_⟩
    · unfold add_lrc_geom
      simp only [LRCGeometry.cost_1, LRCGeometry.cost_2, hs1, hs2, emap_ok',
        bind_ok']
      unfold Mat.hconcat Mat.smul
      simp only [if_pos hr1, if_pos hr2, bind_ok']
      unfold LRCGeometry.init
      rw [if_pos (by simpa using congrArg₂ (· + ·) hc1 hc2)]
    · show g1._cost_1.c + g2._cost_1.c = g1._cost_1.c + g2._cost_1.c
      rfl
    · intro C C1 C2 hC hC1 hC2
      simp only [LRCGeometry.cost_matrix, LRCGeometry.cost_1,
        LRCGeometry.cost_2, LRCGeometry.bias,
        hs1, hs2, emap_ok', bind_ok', pure_ok', Except.ok.injEq] at hC1 hC2
      simp only [LRCGeometry.cost_matrix, LRCGeometry.cost_1,
        LRCGeometry.cost_2, LRCGeometry.bias, LRCGeometry.scale_cost,
        emap_ok', bind_ok', pure_ok', Except.ok.injEq] at hC
      subst hC; subst hC1; subst hC2
      refine ⟨rfl, rfl, ?_⟩
      intro i hi j hj
      unfold Mat.mulT Mat.addConst Mat.add Mat.smul
      show (∑ k ∈ Finset.range (g1._cost_1.c + g2._cost_1.c), _) + 0 * 1 = _
      rw [Finset.sum_range_add]
      have hfirst : ∀ k ∈ Finset.range g1._cost_1.c,
          (sqrt 1 * (if k < g1._cost_1.c then sqrt s1 * g1._cost_1.e i k
            else sqrt s2 * g2._cost_1.e i (k - g1._cost_1.c))) *
          (sqrt 1 * (if k < g1._cost_2.c then sqrt s1 * g1._cost_2.e j k
            else sqrt s2 * g2._cost_2.e j (k - g1._cost_2.c))) =
          (sqrt s1 * g1._cost_1.e i k) * (sqrt s1 * g1._cost_2.e j k) := by
        intro k hk
        have hk1 := Finset.mem_range.mp hk
        rw [if_pos hk1, if_pos (hc1 ▸ hk1), hsq1]
      have hsecond : ∀ x ∈ Finset.range g2._cost_1.c,
          (sqrt 1 * (if g1._cost_1.c + x < g1._cost_1.c then
              sqrt s1 * g1._cost_1.e i (g1._cost_1.c + x)
            else sqrt s2 * g2._cost_1.e i (g1._cost_1.c + x - g1._cost_1.c))) *
          (sqrt 1 * (if g1._cost_1.c + x < g1._cost_2.c then
              sqrt s1 * g1._cost_2.e j (g1._cost_1.c + x)
            else sqrt s2 * g2._cost_2.e j (g1._cost_1.c + x - g1._cost_2.c))) =
          (sqrt s2 * g2._cost_1.e i x) * (sqrt s2 * g2._cost_2.e j x) := by
        intro x _
        rw [if_neg (by omega), if_neg (by omega), Nat.add_sub_cancel_left,
          ← hc1, Nat.add_sub_cancel_left, hsq1]
      rw [Finset.sum_congr rfl hfirst, Finset.sum_congr rfl hsecond, hb1, hb2]
      ring
  · intro hne
    unfold add_lrc_geom
    simp only [LRCGeometry.cost_1, LRCGeometry.cost_2, hs1, hs2, emap_ok',
      bind_ok']
    unfold Mat.hconcat Mat.smul
    by_cases hr1 : g1._cost_1.r = g2._cost_1.r
    · have hr2 : ¬ g1._cost_2.r = g2._cost_2.r := fun h => hne ⟨hr1, h⟩
      simp only [if_pos hr1, bind_ok', if_neg hr2, bind_error']
    · simp only [if_neg hr1, bind_error']

/-! ### C4: construction-time shape checks -/

/-- C4 counterexample: constructing from two factors with zero columns
(`r = 0`) succeeds — `__init__` only asserts equal column counts and does
not enforce `r ≥ 1`, so the claim that `r = 0` fails at construction is
false. -/
theorem C4_counterexample_rank_zero_accepted :
    LRCGeometry.init ⟨1, 0, fun _ _ => 0⟩ ⟨1, 0, fun _ _ => 0⟩ 0 SC.none ⟨0⟩ =
      Except.ok ⟨⟨1, 0, fun _ _ => 0⟩, ⟨1, 0, fun _ _ => 0⟩, 0, SC.none, ⟨0⟩⟩ :=
  rfl

/-- C4 (amended): construction enforces exactly that the two factors have
equal column counts — equal counts (including `r = 0`) succeed and yield a
geometry with `factor1.columns = factor2.columns`, unequal counts fail
with `ShapeMismatch`. -/
theorem C4_init_shape_check (c1 c2 : Mat) (b : ℚ) (sc : SC) (kw : Aux) :
    (c1.c = c2.c → ∃ g, LRCGeometry.init c1 c2 b sc kw = Except.ok g ∧
      g._cost_1.c = g._cost_2.c) ∧
    (c1.c ≠ c2.c →
      LRCGeometry.init c1 c2 b sc kw = Except.error Err.shapeMismatch) := by
  constructor
  · intro h
    exact ⟨⟨c1, c2, b, sc, kw⟩, by unfold LRCGeometry.init; rw [if_pos h], h⟩
  · intro h
    unfold LRCGeometry.init
    rw [if_neg h]

/-- Witness for the amended C4 at concrete inputs: equal column counts
succeed, unequal ones fail. -/
theorem C4_witness :
    (∃ g, LRCGeometry.init ⟨1, 1, fun _ _ => 0⟩ ⟨1, 1, fun _ _ => 0⟩ 0
        SC.none ⟨0⟩ = Except.ok g ∧ g._cost_1.c = g._cost_2.c) ∧
    LRCGeometry.init ⟨1, 1, fun _ _ => 0⟩ ⟨1, 2, fun _ _ => 0⟩ 0 SC.none ⟨0⟩ =
      Except.error Err.shapeMismatch :=
  ⟨(C4_init_shape_check ⟨1, 1, fun _ _ => 0⟩ ⟨1, 1, fun _ _ => 0⟩ 0
      SC.none ⟨0⟩).1 rfl,
    (C4_init_shape_check ⟨1, 1, fun _ _ => 0⟩ ⟨1, 2, fun _ _ => 0⟩ 0
      SC.none ⟨0⟩).2 (by decide)⟩

/-! ### C5: the max_bound policy -/

lemma foldr_max_map_mul (c : ℚ) (hc : 0 ≤ c) (l : List ℚ) :
    ((l.map fun x => c * x).foldr max 0) = c * l.foldr max 0 := by
  induction l with
  | nil => simp
  | cons a t ih =>
    simp only [List.map_cons, List.foldr_cons, ih,
      mul_max_of_nonneg _ _ hc]

lemma maxAbs_smul (t : ℚ) (A : Mat) :
    (Mat.smul t A).maxAbs = |t| * A.maxAbs := by
  unfold Mat.maxAbs
  have h : ((Mat.smul t A).entriesList.map fun x => |x|) =
      (A.entriesList.map fun x => |x|).map fun x => |t| * x := by
    unfold Mat.entriesList Mat.smul
    simp only [List.map_flatten, List.map_map, Function.comp]
    refine congrArg List.flatten ?_
    refine List.map_congr_left fun i _ => ?_
    simp only [List.map_map, Function.comp]
    refine List.map_congr_left fun j _ => ?_
    exact abs_mul t (A.e i j)
  rw [h, foldr_max_map_mul _ (abs_nonneg t)]

/-- C5: with the `'max_bound'` policy (and a nonzero bound), the resolved
scale equals `1 / (max|factor1| · max|factor2| + |bias|)`, repeated
resolution yields identical values, and after scaling
`max|scaledFactor1| · max|scaledFactor2| + |scaledBias| = 1` in exact
arithmetic. -/
theorem C5_max_bound_scale (g : LRCGeometry) (sqrt : ℚ → ℚ)
    (hpol : g._scale_cost = SC.str "max_bound")
    (hd : 0 < g._cost_1.maxAbs * g._cost_2.maxAbs + |g._bias|)
    (hs : ∀ s, g.scale_cost = Except.ok s → sqrt s * sqrt s = s) :
    g.scale_cost =
      Except.ok (1 / (g._cost_1.maxAbs * g._cost_2.maxAbs + |g._bias|)) ∧
    (∀ s s', g.scale_cost = Except.ok s → g.scale_cost = Except.ok s' →
      s = s') ∧
    ∀ M1 M2 b, g.cost_1 sqrt = Except.ok M1 → g.cost_2 sqrt = Except.ok M2 →
      g.bias = Except.ok b →
      M1.maxAbs * M2.maxAbs + |b| = 1 := by
  have hsc : g.scale_cost =
      Except.ok (1 / (g._cost_1.maxAbs * g._cost_2.maxAbs + |g._bias|)) := by
    unfold LRCGeometry.scale_cost
    rw [hpol]
    rfl
  refine ⟨hsc, fun s s' h h' => by rw [h] at h'; exact (Except.ok.injEq ..).mp h', ?_⟩
  intro M1 M2 b h1 h2 h3
  set D := g._cost_1.maxAbs * g._cost_2.maxAbs + |g._bias| with hD
  have hsq : sqrt (1 / D) * sqrt (1 / D) = 1 / D := hs _ hsc
  have hM1 : M1 = Mat.smul (sqrt (1 / D)) g._cost_1 := by
    rw [LRCGeometry.cost_1, hsc, emap_ok', Except.ok.injEq] at h1
    exact h1.symm
  have hM2 : M2 = Mat.smul (sqrt (1 / D)) g._cost_2 := by
    rw [LRCGeometry.cost_2, hsc, emap_ok', Except.ok.injEq] at h2
    exact h2.symm
  have hb : b = g._bias * (1 / D) := by
    rw [LRCGeometry.bias, hsc, emap_ok', Except.ok.injEq] at h3
    exact h3.symm
  have hpos : 0 < 1 / D := by positivity
  subst hM1; subst hM2; subst hb
  rw [maxAbs_smul, maxAbs_smul, abs_mul, abs_of_pos hpos]
  calc |sqrt (1 / D)| * g._cost_1.maxAbs *
        (|sqrt (1 / D)| * g._cost_2.maxAbs) + |g._bias| * (1 / D)
      = |sqrt (1 / D) * sqrt (1 / D)| *
          (g._cost_1.maxAbs * g._cost_2.maxAbs) + |g._bias| * (1 / D) := by
        rw [abs_mul]; ring
    _ = (1 / D) * (g._cost_1.maxAbs * g._cost_2.maxAbs + |g._bias|) := by
        rw [hsq, abs_of_pos hpos]; ring
    _ = 1 := one_div_mul_cancel hd.ne'

/-- The `1×1` all-ones matrix has `maxAbs = 1`. -/
lemma maxAbs_ones : (⟨1, 1, fun _ _ => (1 : ℚ)⟩ : Mat).maxAbs = 1 := by
  unfold Mat.maxAbs
  have h : (⟨1, 1, fun _ _ => (1 : ℚ)⟩ : Mat).entriesList = [1] := rfl
  rw [h]
  simp only [List.map_cons, List.map_nil, List.foldr_cons, List.foldr_nil,
    abs_one]
  exact max_eq_left zero_le_one

lemma exG5_scale : exG5.scale_cost = Except.ok 1 := by
  unfold LRCGeometry.scale_cost exG5
  norm_num [maxAbs_ones]

/-- Witness for C5 at a concrete geometry (all-ones `1×1` factors, bias
`0`, resolved scale `1`). -/
theorem C5_witness :
    exG5.scale_cost =
      Except.ok (1 / (exG5._cost_1.maxAbs * exG5._cost_2.maxAbs +
        |exG5._bias|)) ∧
    (∀ s s', exG5.scale_cost = Except.ok s →
      exG5.scale_cost = Except.ok s' → s = s') ∧
    ∀ M1 M2 b, exG5.cost_1 (fun _ => 1) = Except.ok M1 →
      exG5.cost_2 (fun _ => 1) = Except.ok M2 →
      exG5.bias = Except.ok b →
      M1.maxAbs * M2.maxAbs + |b| = 1 :=
  C5_max_bound_scale exG5 (fun _ => 1) rfl
    (by
      show (0 : ℚ) < (⟨1, 1, fun _ _ => (1 : ℚ)⟩ : Mat).maxAbs *
        (⟨1, 1, fun _ _ => (1 : ℚ)⟩ : Mat).maxAbs + |(0 : ℚ)|
      rw [maxAbs_ones]
      norm_num)
    (by
      intro s h
      rw [exG5_scale, Except.ok.injEq] at h
      rw [← h]
      norm_num)

/-! ### C6: the mean policy -/

lemma triple_sum_reorder (n m r : Nat) (a b : Nat → Nat → ℚ) :
    (∑ i ∈ Finset.range n, ∑ j ∈ Finset.range m,
      ∑ k ∈ Finset.range r, a i k * b j k) =
    ∑ k ∈ Finset.range r,
      (∑ i ∈ Finset.range n, a i k) * (∑ j ∈ Finset.range m, b j k) := by
  calc (∑ i ∈ Finset.range n, ∑ j ∈ Finset.range m,
        ∑ k ∈ Finset.range r, a i k * b j k)
      = ∑ i ∈ Finset.range n, ∑ k ∈ Finset.range r,
          ∑ j ∈ Finset.range m, a i k * b j k := by
        exact Finset.sum_congr rfl fun i _ => Finset.sum_comm
    _ = ∑ k ∈ Finset.range r, ∑ i ∈ Finset.range n,
          ∑ j ∈ Finset.range m, a i k * b j k := Finset.sum_comm
    _ = ∑ k ∈ Finset.range r,
          (∑ i ∈ Finset.range n, a i k) * (∑ j ∈ Finset.range m, b j k) := by
        refine Finset.sum_congr rfl fun k _ => ?_
        rw [Finset.sum_mul]
        exact Finset.sum_congr rfl fun i _ => (Finset.mul_sum ..).symm

/-- C6: with the `'mean'` policy, the scale is resolved without
materializing the cost matrix as `1 / ((1ᵀ·A)·(Bᵀ·1)/(n·m) + bias)`, and
whenever the unscaled mean is nonzero the mean of the resulting scaled
cost matrix equals `1` in exact arithmetic. -/
theorem C6_mean_scale (g : LRCGeometry) (sqrt : ℚ → ℚ)
    (hpol : g._scale_cost = SC.str "mean")
    (hn : 1 ≤ g._cost_1.r) (hm : 1 ≤ g._cost_2.r)
    (hmean : g.unscaledMean ≠ 0)
    (hs : ∀ s, g.scale_cost = Except.ok s → sqrt s * sqrt s = s) :
    g.scale_cost = Except.ok (1 / g.unscaledMean) ∧
    ∀ C, g.cost_matrix sqrt = Except.ok C → C.mean = 1 := by
  have hsc : g.scale_cost = Except.ok (1 / g.unscaledMean) := by
    unfold LRCGeometry.scale_cost LRCGeometry.unscaledMean
    rw [hpol]
    rfl
  refine ⟨hsc, ?_⟩
  intro C hC
  have hsq : sqrt (1 / g.unscaledMean) * sqrt (1 / g.unscaledMean) =
      1 / g.unscaledMean := hs _ hsc
  simp only [LRCGeometry.cost_matrix, LRCGeometry.cost_1, LRCGeometry.cost_2,
    LRCGeometry.bias, hsc, emap_ok', bind_ok', pure_ok',
    Except.ok.injEq] at hC
  subst hC
  unfold Mat.mean Mat.mulT Mat.addConst Mat.smul
  set s0 := 1 / g.unscaledMean with hs0
  set T := ∑ k ∈ Finset.range g._cost_1.c,
      (∑ i ∈ Finset.range g._cost_1.r, g._cost_1.e i k) *
      (∑ j ∈ Finset.range g._cost_2.r, g._cost_2.e j k) with hT
  have hinner : ∀ i j, (∑ k ∈ Finset.range g._cost_1.c,
      (sqrt s0 * g._cost_1.e i k) * (sqrt s0 * g._cost_2.e j k)) =
      s0 * ∑ k ∈ Finset.range g._cost_1.c,
        g._cost_1.e i k * g._cost_2.e j k := by
    intro i j
    rw [Finset.mul_sum]
    refine Finset.sum_congr rfl fun k _ => ?_
    calc (sqrt s0 * g._cost_1.e i k) * (sqrt s0 * g._cost_2.e j k)
        = (sqrt s0 * sqrt s0) * (g._cost_1.e i k * g._cost_2.e j k) := by ring
      _ = s0 * (g._cost_1.e i k * g._cost_2.e j k) := by rw [hsq]
  have hpull : (∑ i ∈ Finset.range g._cost_1.r,
      ∑ j ∈ Finset.range g._cost_2.r,
        s0 * ∑ k ∈ Finset.range g._cost_1.c,
          g._cost_1.e i k * g._cost_2.e j k) =
      s0 * ∑ i ∈ Finset.range g._cost_1.r,
        ∑ j ∈ Finset.range g._cost_2.r,
          ∑ k ∈ Finset.range g._cost_1.c,
            g._cost_1.e i k * g._cost_2.e j k := by
    rw [Finset.mul_sum]
    exact Finset.sum_congr rfl fun i _ => (Finset.mul_sum ..).symm
  have hsum :
      (∑ i ∈ Finset.range g._cost_1.r, ∑ j ∈ Finset.range g._cost_2.r,
        ((∑ k ∈ Finset.range g._cost_1.c,
          (sqrt s0 * g._cost_1.e i k) * (sqrt s0 * g._cost_2.e j k)) +
          g._bias * s0)) =
      s0 * T + (g._cost_1.r : ℚ) * (g._cost_2.r : ℚ) * (g._bias * s0) := by
    simp only [Finset.sum_add_distrib, Finset.sum_const, Finset.card_range,
      nsmul_eq_mul]
    refine congrArg₂ (· + ·) ?_ (by ring)
    calc (∑ i ∈ Finset.range g._cost_1.r, ∑ j ∈ Finset.range g._cost_2.r,
          ∑ k ∈ Finset.range g._cost_1.c,
            (sqrt s0 * g._cost_1.e i k) * (sqrt s0 * g._cost_2.e j k))
        = ∑ i ∈ Finset.range g._cost_1.r, ∑ j ∈ Finset.range g._cost_2.r,
            s0 * ∑ k ∈ Finset.range g._cost_1.c,
              g._cost_1.e i k * g._cost_2.e j k := by
          exact Finset.sum_congr rfl fun i _ =>
            Finset.sum_congr rfl fun j _ => hinner i j
      _ = s0 * ∑ i ∈ Finset.range g._cost_1.r,
            ∑ j ∈ Finset.range g._cost_2.r,
              ∑ k ∈ Finset.range g._cost_1.c,
                g._cost_1.e i k * g._cost_2.e j k := hpull
      _ = s0 * T := by
          rw [triple_sum_reorder g._cost_1.r g._cost_2.r g._cost_1.c
            (fun i k => g._cost_1.e i k) (fun j k => g._cost_2.e j k), hT]
  rw [hsum]
  have hn' : (0 : ℚ) < (g._cost_1.r : ℚ) := by
    have : (1 : ℚ) ≤ (g._cost_1.r : ℚ) := by exact_mod_cast hn
    linarith
  have hm' : (0 : ℚ) < (g._cost_2.r : ℚ) := by
    have : (1 : ℚ) ≤ (g._cost_2.r : ℚ) := by exact_mod_cast hm
    linarith
  have hnm : ((g._cost_1.r : ℚ) * (g._cost_2.r : ℚ)) ≠ 0 :=
    ne_of_gt (mul_pos hn' hm')
  have hmu : g.unscaledMean =
      T / ((g._cost_1.r : ℚ) * (g._cost_2.r : ℚ)) + g._bias := by
    rw [hT]
    rfl
  have hkey : T + g._bias * ((g._cost_1.r : ℚ) * (g._cost_2.r : ℚ)) =
      g.unscaledMean * ((g._cost_1.r : ℚ) * (g._cost_2.r : ℚ)) := by
    rw [hmu]
    field_simp
  calc (s0 * T + (g._cost_1.r : ℚ) * (g._cost_2.r : ℚ) * (g._bias * s0)) /
        ((g._cost_1.r : ℚ) * (g._cost_2.r : ℚ))
      = (s0 * (T + g._bias * ((g._cost_1.r : ℚ) * (g._cost_2.r : ℚ)))) /
        ((g._cost_1.r : ℚ) * (g._cost_2.r : ℚ)) := by ring_nf
    _ = (s0 * (g.unscaledMean * ((g._cost_1.r : ℚ) * (g._cost_2.r : ℚ)))) /
        ((g._cost_1.r : ℚ) * (g._cost_2.r : ℚ)) := by rw [hkey]
    _ = (s0 * g.unscaledMean) *
        (((g._cost_1.r : ℚ) * (g._cost_2.r : ℚ)) /
          ((g._cost_1.r : ℚ) * (g._cost_2.r : ℚ))) := by ring
    _ = 1 := by
        rw [div_self hnm, mul_one, hs0, one_div_mul_cancel hmean]

lemma exG6_mean : exG6.unscaledMean = 1 := by
  unfold LRCGeometry.unscaledMean exG6
  norm_num

lemma exG6_scale : exG6.scale_cost = Except.ok 1 := by
  have h : exG6.scale_cost = Except.ok (1 / exG6.unscaledMean) := by
    unfold LRCGeometry.scale_cost LRCGeometry.unscaledMean
    rfl
  rw [h, exG6_mean]
  norm_num

/-- Witness for C6 at a concrete geometry (all-ones `1×1` factors, bias
`0`, unscaled mean `1`). -/
theorem C6_witness :
    exG6.scale_cost = Except.ok (1 / exG6.unscaledMean) ∧
    ∀ C, exG6.cost_matrix (fun _ => 1) = Except.ok C → C.mean = 1 :=
  C6_mean_scale exG6 (fun _ => 1) rfl (by decide) (by decide)
    (by rw [exG6_mean]; norm_num)
    (by
      intro s h
      rw [exG6_scale, Except.ok.injEq] at h
      rw [← h]
      norm_num)


/-- Witness for C3 at two concrete same-shape zero-bias geometries. -/
theorem C3_witness :
    (exG2._cost_1.r = exG3._cost_1.r → exG2._cost_2.r = exG3._cost_2.r →
      ∃ g, add_lrc_geom (fun _ => 1) exG2 exG3 = Except.ok g ∧
        g.cost_rank = exG2.cost_rank + exG3.cost_rank ∧
        g._kwargs = exG2._kwargs ∧
        ∀ C C1 C2, g.cost_matrix (fun _ => 1) = Except.ok C →
          exG2.cost_matrix (fun _ => 1) = Except.ok C1 →
          exG3.cost_matrix (fun _ => 1) = Except.ok C2 →
          C.Ext (C1.add C2)) ∧
    (¬ (exG2._cost_1.r = exG3._cost_1.r ∧ exG2._cost_2.r = exG3._cost_2.r) →
      add_lrc_geom (fun _ => 1) exG2 exG3 = Except.error Err.shapeMismatch) :=
  C3_add_lrc_geom_merge (fun _ => 1) exG2 exG3 rfl rfl rfl rfl
    ⟨1, rfl⟩ ⟨1, rfl⟩ (by norm_num)

/-! ### C7: the unimplemented max_cost policy -/

/-- C7: with the `'max_cost'` policy, scale resolution fails with
`NotImplemented`, and so does every operation that reads the scaled
factors, the scaled bias, the cost matrix, or applies the cost; it never
returns `1.0` or any other value. -/
theorem C7_max_cost_always_fails (g : LRCGeometry)
    (hpol : g._scale_cost = SC.str "max_cost") :
    g.scale_cost = Except.error Err.notImplemented ∧
    (∀ sqrt, g.cost_1 sqrt = Except.error Err.notImplemented) ∧
    (∀ sqrt, g.cost_2 sqrt = Except.error Err.notImplemented) ∧
    g.bias = Except.error Err.notImplemented ∧
    (∀ sqrt, g.cost_matrix sqrt = Except.error Err.notImplemented) ∧
    (∀ sqrt vec axis,
      g._apply_cost_to_vec sqrt vec axis = Except.error Err.notImplemented) ∧
    (∀ sqrt vec axis,
      g.apply_square_cost sqrt vec axis = Except.error Err.notImplemented) := by
  have h : g.scale_cost = Except.error Err.notImplemented := by
    unfold LRCGeometry.scale_cost
    rw [hpol]
    rfl
  refine ⟨h, fun sqrt => ?_, fun sqrt => ?_, ?_, fun sqrt => ?_,
    fun sqrt vec axis => ?_, fun sqrt vec axis => ?_⟩
  · rw [LRCGeometry.cost_1, h]
    rfl
  · rw [LRCGeometry.cost_2, h]
    rfl
  · rw [LRCGeometry.bias, h]
    rfl
  · simp [LRCGeometry.cost_matrix, LRCGeometry.cost_1, h, emap_error',
      bind_error']
  · by_cases hax : axis = 1 <;>
      simp [LRCGeometry._apply_cost_to_vec, LRCGeometry.efficient_apply,
        LRCGeometry.cost_1, LRCGeometry.cost_2, h, hax, emap_error',
        bind_error']
  · by_cases hlt : g._cost_1.r * g._cost_2.r <
        (g._cost_1.r + g._cost_2.r) * (g._cost_1.c * g._cost_1.c)
    · simp [LRCGeometry.apply_square_cost, hlt,
        LRCGeometry.base_apply_square_cost, LRCGeometry.cost_matrix,
        LRCGeometry.cost_1, h, emap_error', bind_error']
    · simp [LRCGeometry.apply_square_cost, hlt, LRCGeometry.cost_1, h,
        emap_error', bind_error']

/-- Witness for C7 at a concrete `'max_cost'` geometry. -/
theorem C7_witness :
    exG7.scale_cost = Except.error Err.notImplemented ∧
    (∀ sqrt, exG7.cost_1 sqrt = Except.error Err.notImplemented) ∧
    (∀ sqrt, exG7.cost_2 sqrt = Except.error Err.notImplemented) ∧
    exG7.bias = Except.error Err.notImplemented ∧
    (∀ sqrt, exG7.cost_matrix sqrt = Except.error Err.notImplemented) ∧
    (∀ sqrt vec axis, exG7._apply_cost_to_vec sqrt vec axis =
      Except.error Err.notImplemented) ∧
    (∀ sqrt vec axis, exG7.apply_square_cost sqrt vec axis =
      Except.error Err.notImplemented) :=
  C7_max_cost_always_fails exG7 rfl

/-! ### C8: unrecognized policy strings fail lazily -/

/-- C8: constructing with an unrecognized scale-policy string succeeds
(the policy is not inspected at construction); the `InvalidConfig` failure
happens when the scale is resolved, and no partial result is returned
(reading the cost matrix fails the same way). -/
theorem C8_invalid_policy_fails_lazily (p : String) (c1 c2 : Mat) (b : ℚ)
    (kw : Aux) (hcols : c1.c = c2.c)
    (hp1 : p ≠ "max_bound") (hp2 : p ≠ "mean") (hp3 : p ≠ "max_cost") :
    ∃ g, LRCGeometry.init c1 c2 b (SC.str p) kw = Except.ok g ∧
      g.scale_cost = Except.error Err.invalidConfig ∧
      ∀ sqrt, g.cost_matrix sqrt = Except.error Err.invalidConfig := by
  have h : LRCGeometry.scale_cost ⟨c1, c2, b, SC.str p, kw⟩ =
      Except.error Err.invalidConfig := by
    simp only [LRCGeometry.scale_cost]
    rw [if_neg hp1, if_neg hp2, if_neg hp3]
  refine ⟨⟨c1, c2, b, SC.str p, kw⟩, ?_, h, ?_⟩
  · unfold LRCGeometry.init
    rw [if_pos hcols]
  · intro sqrt
    simp [LRCGeometry.cost_matrix, LRCGeometry.cost_1, h, emap_error',
      bind_error']

/-- Witness for C8 at a concrete unrecognized policy string. -/
theorem C8_witness :
    ∃ g, LRCGeometry.init ⟨1, 1, fun _ _ => 1⟩ ⟨1, 1, fun _ _ => 1⟩ 0
        (SC.str "bogus") ⟨0⟩ = Except.ok g ∧
      g.scale_cost = Except.error Err.invalidConfig ∧
      ∀ sqrt, g.cost_matrix sqrt = Except.error Err.invalidConfig :=
  C8_invalid_policy_fails_lazily "bogus" ⟨1, 1, fun _ _ => 1⟩
    ⟨1, 1, fun _ _ => 1⟩ 0 ⟨0⟩ rfl (by decide) (by decide) (by decide)

/-! ### C9: pytree decomposition round trip -/

/-- C9: flattening a well-formed geometry into leaves
`(rawFactor1, rawFactor2, kwargs)` plus static data `(bias, scale policy)`
and unflattening reconstructs the very same geometry, so its cost matrix
(and every other operation) is identical to the original's. -/
theorem C9_tree_round_trip (g : LRCGeometry)
    (hcols : g._cost_1.c = g._cost_2.c) :
    LRCGeometry.tree_unflatten (g.tree_flatten).2 (g.tree_flatten).1 =
      Except.ok g ∧
    ∀ sqrt,
      (LRCGeometry.tree_unflatten (g.tree_flatten).2 (g.tree_flatten).1 >>=
        fun g2 => g2.cost_matrix sqrt) = g.cost_matrix sqrt := by
  have h : LRCGeometry.tree_unflatten (g.tree_flatten).2 (g.tree_flatten).1 =
      Except.ok g := by
    unfold LRCGeometry.tree_unflatten LRCGeometry.tree_flatten
      LRCGeometry.init
    rw [if_pos hcols]
  exact ⟨h, fun sqrt => by rw [h, bind_ok']⟩

/-- Witness for C9 at a concrete geometry. -/
theorem C9_witness :
    LRCGeometry.tree_unflatten (exG1.tree_flatten).2 (exG1.tree_flatten).1 =
      Except.ok exG1 ∧
    ∀ sqrt,
      (LRCGeometry.tree_unflatten (exG1.tree_flatten).2
          (exG1.tree_flatten).1 >>=
        fun g2 => g2.cost_matrix sqrt) = exG1.cost_matrix sqrt :=
  C9_tree_round_trip exG1 rfl

/-! ### C10: non-float, non-string scale values -/

/-- C10: a `scale_cost` value that is neither a float nor a string (nor
`None`) silently resolves to the identity scale `1.0`; only float
instances are honored as fixed scale factors. -/
theorem C10_non_float_scale_identity (g : LRCGeometry) :
    (g._scale_cost = SC.other → g.scale_cost = Except.ok 1) ∧
    (∀ q, g._scale_cost = SC.flt q → g.scale_cost = Except.ok q) := by
  constructor
  · intro h
    unfold LRCGeometry.scale_cost
    rw [h]
  · intro q h
    unfold LRCGeometry.scale_cost
    rw [h]

/-- Witness for C10: a geometry whose scale argument is a Python int
resolves to scale `1`. -/
theorem C10_witness : exG10.scale_cost = Except.ok 1 :=
  (C10_non_float_scale_identity exG10).1 rfl

end OttLowRank
